import Mathlib

/-!
A shallow embedding of the library-discovery, loading and
version-classification logic of the `clang-sys` crate
(`src/link.rs`, `build/common.rs`), together with theorems that check the
natural-language specification's claims against the embedded code.

Conventions used throughout:
* filesystem paths are modelled as lists of path components (`List String`)
  or as plain strings where the source only treats them as strings;
* calls into the operating system (glob expansion, process spawning,
  symbol lookup in a loaded native module) are modelled by passing their
  observable outcome as an explicit argument;
* Rust `u32` parsing is modelled with an explicit `< 2 ^ 32` range check.
-/

namespace ClangSys

/-- The `Version` enumeration from `src/link.rs` (the "(minimum) version of a
`libclang` shared library"), one constructor per source variant. -/
inductive Version where
  | V3_5
  | V3_6
  | V3_7
  | V3_8
  | V3_9
  | V4_0
  | V5_0
  | V6_0
  | V7_0
  | V8_0
  | V9_0
  | V11_0
  | V12_0
  | V16_0
  | V17_0
  | V18_0
  | V19_0
  | V20_0
  | V21_0
  | V22_0
  | V23_0
  deriving DecidableEq, Repr

/-- The numeric discriminant assigned to each `Version` variant in
`src/link.rs` (`V3_5 = 35`, ..., `V23_0 = 230`); the source derives `Ord`
on the enum, so these values give the ordering of versions. -/
def Version.val : Version → Nat
  | .V3_5 => 35
  | .V3_6 => 36
  | .V3_7 => 37
  | .V3_8 => 38
  | .V3_9 => 39
  | .V4_0 => 40
  | .V5_0 => 50
  | .V6_0 => 60
  | .V7_0 => 70
  | .V8_0 => 80
  | .V9_0 => 90
  | .V11_0 => 110
  | .V12_0 => 120
  | .V16_0 => 160
  | .V17_0 => 170
  | .V18_0 => 180
  | .V19_0 => 190
  | .V20_0 => 200
  | .V21_0 => 210
  | .V22_0 => 220
  | .V23_0 => 230

/-- A loaded `libclang` shared library as observed by the version
classifier in `src/link.rs`.  `symbols` is the set of exported symbol
names (`library.get(name).is_ok()` in the source is membership here);
`versionString` is the text obtained by calling `clang_getClangVersion`
followed by `clang_getCString` — `none` models a null C-string pointer or
text that is not valid UTF-8. -/
structure SharedLibrary where
  symbols : List String
  versionString : Option String
  deriving Repr

/-- Whether the loaded library exports a symbol
(`self.library.get::<...>(name).is_ok()` in `src/link.rs`). -/
def hasSymbol (lib : SharedLibrary) (name : String) : Bool :=
  lib.symbols.contains name

/-- Splits a character list at every character satisfying `p`, keeping
empty segments, exactly like Rust `str::split` with a char predicate. -/
def splitOnPred (p : Char → Bool) : List Char → List (List Char)
  | [] => [[]]
  | c :: cs =>
    if p c then [] :: splitOnPred p cs
    else
      match splitOnPred p cs with
      | [] => [[c]]
      | g :: gs => (c :: g) :: gs

/-- The numeric value of a list of ASCII digits. -/
def natOfDigits (cs : List Char) : Nat :=
  cs.foldl (fun a c => a * 10 + (c.toNat - 48)) 0

/-- Rust `str::parse::<u32>` on a character list: an optional leading `+`,
then one or more ASCII digits, value below `2 ^ 32`. -/
def parseU32 (cs : List Char) : Option Nat :=
  let t := if cs.head? = some '+' then cs.drop 1 else cs
  if t ≠ [] ∧ t.all Char.isDigit then
    if natOfDigits t < 4294967296 then some (natOfDigits t) else none
  else none

/-- The major-version extraction from `version_from_string` in
`src/link.rs`: split the version string on whitespace (Rust
`split_whitespace` discards empty segments), take the third token, split
it on `.`, take the first piece and parse it as a `u32`. -/
def parse_major (s : String) : Option Nat :=
  match ((splitOnPred Char.isWhitespace s.toList).filter (fun t => t ≠ []))[2]? with
  | none => none
  | some token =>
    match (splitOnPred (fun c => c = '.') token)[0]? with
    | none => none
    | some m => parseU32 m

/-- The `match major` mapping at the end of `version_from_string` in
`src/link.rs`, grouping raw Clang major versions onto `Version` variants. -/
def majorToVersion (major : Nat) : Option Version :=
  if 23 ≤ major then some .V23_0
  else if major = 22 then some .V22_0
  else if major = 21 then some .V21_0
  else if major = 20 then some .V20_0
  else if major = 19 then some .V19_0
  else if major = 18 then some .V18_0
  else if major = 17 then some .V17_0
  else if major = 16 then some .V16_0
  else if 12 ≤ major ∧ major ≤ 15 then some .V12_0
  else if major = 11 then some .V11_0
  else if major = 9 ∨ major = 10 then some .V9_0
  else if major = 8 then some .V8_0
  else if major = 7 then some .V7_0
  else if major = 6 then some .V6_0
  else if major = 5 then some .V5_0
  else if major = 4 then some .V4_0
  else none

/-- Embeds `SharedLibrary::version_from_string` from `src/link.rs`: requires the
`clang_getClangVersion` and `clang_getCString` exports, a non-null valid
version string, a parseable major component, and — because the
`clang_disposeString` symbol is looked up only after parsing — the
`clang_disposeString` export; then maps the major version onto `Version`. -/
def SharedLibrary.version_from_string (lib : SharedLibrary) : Option Version :=
  if hasSymbol lib "clang_getClangVersion" = false then none
  else if hasSymbol lib "clang_getCString" = false then none
  else
    match lib.versionString with
    | none => none
    | some s =>
      match parse_major s with
      | none => none
      | some major =>
        if hasSymbol lib "clang_disposeString" = false then none
        else majorToVersion major

/-- Embeds `SharedLibrary::version` from `src/link.rs`: a newest-first chain of
marker-symbol checks; for the 21-and-newer marker and the 17 marker the
string parse is preferred with the marker-implied version as fallback
(`self.version_from_string().or(Some(Version::VXX_0))`). -/
def SharedLibrary.version (lib : SharedLibrary) : Option Version :=
  if hasSymbol lib "clang_getFullyQualifiedName" then
    match lib.version_from_string with
    | some v => some v
    | none => some .V21_0
  else if hasSymbol lib "clang_getOffsetOfBase" then some .V20_0
  else if hasSymbol lib "clang_Cursor_getBinaryOpcode" then some .V19_0
  else if hasSymbol lib "clang_CXXMethod_isExplicit" then
    match lib.version_from_string with
    | some v => some v
    | none => some .V17_0
  else if hasSymbol lib "clang_CXXMethod_isCopyAssignmentOperator" then some .V16_0
  else if hasSymbol lib "clang_Cursor_getVarDeclInitializer" then some .V12_0
  else if hasSymbol lib "clang_Type_getValueType" then some .V11_0
  else if hasSymbol lib "clang_Cursor_isAnonymousRecordDecl" then some .V9_0
  else if hasSymbol lib "clang_Cursor_getObjCPropertyGetterName" then some .V8_0
  else if hasSymbol lib "clang_File_tryGetRealPathName" then some .V7_0
  else if hasSymbol lib "clang_CXIndex_setInvocationEmissionPathOption" then some .V6_0
  else if hasSymbol lib "clang_Cursor_isExternalSymbol" then some .V5_0
  else if hasSymbol lib "clang_EvalResult_getAsLongLong" then some .V4_0
  else if hasSymbol lib "clang_CXXConstructor_isConvertingConstructor" then some .V3_9
  else if hasSymbol lib "clang_CXXField_isMutable" then some .V3_8
  else if hasSymbol lib "clang_Cursor_getOffsetOfField" then some .V3_7
  else if hasSymbol lib "clang_Cursor_getStorageClass" then some .V3_6
  else if hasSymbol lib "clang_Type_getNumTemplateArguments" then some .V3_5
  else none

/-- A path component, as a list of characters. -/
abbrev Component := List Char

/-- Rust `str::strip_prefix`: the remainder of `s` after `p` when `p` is a
prefix of `s`, and `none` otherwise. -/
def stripPref (p s : List Char) : Option (List Char) :=
  if p.isPrefixOf s then some (s.drop p.length) else none

/-- The suffix parsing shared by the version-extraction rules in
`extract_version_from_llvm_path` (`build/common.rs`):
`rest.split(.).filter_map(|p| p.parse().ok()).collect()` — non-numeric
pieces are skipped, not fatal. -/
def parseDotted (s : List Char) : List Nat :=
  (splitOnPred (fun c => c = '.') s).filterMap parseU32

/-- The path-component loop of `extract_version_from_llvm_path` in
`build/common.rs`: the first component yielding a non-empty parse of an
`llvm@` or `llvm-` suffix wins; a path with no versioned component yields
the sentinel `[999]`. -/
def scanComponents : List Component → List Nat
  | [] => [999]
  | s :: rest =>
    let v1 :=
      match stripPref "llvm@".toList s with
      | some r => parseDotted r
      | none => []
    if v1.isEmpty then
      let v2 :=
        match stripPref "llvm-".toList s with
        | some r => parseDotted r
        | none => []
      if v2.isEmpty then scanComponents rest else v2
    else v1

/-- Embeds `extract_version_from_llvm_path` from `build/common.rs`.  The path is
modelled as its list of components; `file_name()` is the last component.
A filename of the form `llvm-config-<suffix>` yields the parsed suffix,
or `[0]` when the suffix parses to nothing; otherwise the components are
scanned for `llvm@`/`llvm-` version suffixes; otherwise `[999]`. -/
def extract_version_from_llvm_path (path : List Component) : List Nat :=
  match path.getLast? >>= stripPref "llvm-config-".toList with
  | some rest =>
    let version := parseDotted rest
    if version.isEmpty then [0] else version
  | none => scanComponents path

/-- Rust `Vec<u32>::cmp`: lexicographic comparison, a strict prefix being
less than the longer sequence. -/
def vecCmp : List Nat → List Nat → Ordering
  | [], [] => .eq
  | [], _ :: _ => .lt
  | _ :: _, [] => .gt
  | a :: as, b :: bs =>
    match compare a b with
    | .eq => vecCmp as bs
    | .lt => .lt
    | .gt => .gt

/-- A discovered `llvm-config` candidate: its path (kept opaque as a
string) and its extracted version key. -/
abbrev Cand := String × List Nat

/-- Stable descending insertion by version key: the inserted element goes
in front of the first element whose key is not greater, so an element
keeps its place ahead of later-discovered elements with an equal key. -/
def insertDesc (x : Cand) : List Cand → List Cand
  | [] => [x]
  | y :: ys => if vecCmp y.2 x.2 = .gt then y :: insertDesc x ys else x :: y :: ys

/-- Models `candidates.sort_by(|a, b| b.1.cmp(&a.1))` from
`find_llvm_config_uncached` in `build/common.rs`: Rust's `sort_by` is a
stable sort, modelled here as a stable insertion sort, descending by
version key with discovery order preserved among equal keys. -/
def sortDesc : List Cand → List Cand
  | [] => []
  | x :: xs => insertDesc x (sortDesc xs)

/-- The available-version diagnostic built on selection failure in
`find_llvm_config_uncached` (`build/common.rs`):
`candidates.iter().filter_map(|(_, v)| v.first().map(|n| n.to_string()))`. -/
def available_versions (candidates : List Cand) : List String :=
  candidates.filterMap (fun c => c.2.head?.map toString)

/-- The candidate-selection tail of `find_llvm_config_uncached` in
`build/common.rs` (after the candidate list has been collected): with a
target version, the first candidate whose leading version component
equals the target, else `none`; without a target, the head of the stable
descending sort. -/
def find_llvm_config_select (candidates : List Cand) (target : Option Nat) : Option String :=
  if candidates.isEmpty then none
  else
    match target with
    | some t =>
      match candidates.find? (fun c => c.2.head? == some t) with
      | some c => some c.1
      | none => none
    | none => ((sortDesc candidates).head?).map (fun c => c.1)

/-- Rust `str::trim` (on a character list): whitespace removed from both
ends. -/
def trimChars (cs : List Char) : List Char :=
  ((cs.dropWhile Char.isWhitespace).reverse.dropWhile Char.isWhitespace).reverse

/-- The PATH-probe version parse in `find_llvm_config_uncached`
(`build/common.rs`): `version_str.trim().split(.).next()
.and_then(|s| s.parse::<u32>().ok())`. -/
def path_probe_major (s : String) : Option Nat :=
  match (splitOnPred (fun c => c = '.') (trimChars s.toList))[0]? with
  | none => none
  | some m => parseU32 m

/-- Embeds `find_llvm_config_uncached` from `build/common.rs` with its I/O
abstracted: `pathProbe` is the stdout of `llvm-config --version` when that
probe ran and succeeded, `candidates` the collected glob candidates (with
unversioned sentinels already resolved).  In test mode the whole search is
skipped before any of that is consulted. -/
def find_llvm_config_uncached_model (testMode : Bool) (pathProbe : Option String)
    (target : Option Nat) (candidates : List Cand) : Option String :=
  if testMode then none
  else
    match pathProbe with
    | some out =>
      match target, path_probe_major out with
      | none, _ => some "llvm-config"
      | some _, none => some "llvm-config"
      | some t, some found =>
        if t = found then some "llvm-config"
        else find_llvm_config_select candidates (some t)
    | none => find_llvm_config_select candidates target

/-- The `LLVM_CONFIG_PATH_CACHE` thread-local from `build/common.rs`:
`cached = none` models "not yet searched", `some c` models a stored
search result `c`; `computes` counts how often the uncached search ran. -/
structure LlvmConfigCache where
  cached : Option (Option String)
  computes : Nat
  deriving Repr, DecidableEq

/-- One call of `find_llvm_config` from `build/common.rs`: return the
cached result when present, otherwise run the uncached search (whose
result is the `uncached` argument), store it and count the computation. -/
def find_llvm_config_step (uncached : Option String) (s : LlvmConfigCache) :
    LlvmConfigCache × Option String :=
  match s.cached with
  | some c => (s, c)
  | none => (⟨some uncached, s.computes + 1⟩, uncached)

/-- Runs `n` successive calls of `find_llvm_config` starting from a given state. -/
def resolveN (uncached : Option String) : Nat → LlvmConfigCache → LlvmConfigCache
  | 0, s => s
  | n + 1, s => resolveN uncached n (find_llvm_config_step uncached s).1

/-- Rust `str::contains` on character lists: whether `needle` occurs
contiguously inside the second list. -/
def containsInfix (needle : List Char) : List Char → Bool
  | [] => needle.isEmpty
  | c :: rest => needle.isPrefixOf (c :: rest) || containsInfix needle rest

/-- Embeds `search_directory` from `build/common.rs` with the glob expansion
abstracted: `globMatches` is the list of paths (as component lists) the
compiled glob patterns matched.  The source's `file_name()?` is
`getLast?`, `path.parent().unwrap()` is `dropLast`, and any filename
containing the `-cpp.` infix (the renamed `libclang-cpp` library) is
filtered out. -/
def search_directory (globMatches : List (List Component)) :
    List (List Component × Component) :=
  globMatches.filterMap (fun path =>
    match path.getLast? with
    | none => none
    | some filename =>
      if containsInfix "-cpp.".toList filename then none
      else some (path.dropLast, filename))

/-- The observable outcome of spawning an external helper process:
the spawn failed, or the process exited with the given success flag,
stdout text (losslessly decoded) and displayed exit status. -/
inductive CommandOutcome where
  | spawnError (message : String)
  | exited (success : Bool) (stdout : String) (status : String)

/-- The error text format used by `add_command_error` in
`build/common.rs`. -/
def command_error_entry (name path : String) (arguments : List String)
    (message : String) : String :=
  "couldn't execute `" ++ name ++ " " ++ String.intercalate " " arguments ++
    "` (path=" ++ path ++ ") (" ++ message ++ ")"

/-- Embeds `add_command_error` from `build/common.rs`: appends a formatted error
message under the key `name` to the accumulated error map (modelled as a
list of key/message pairs in insertion order). -/
def add_command_error (errors : List (String × String)) (name path : String)
    (arguments : List String) (message : String) : List (String × String) :=
  errors ++ [(name, command_error_entry name path arguments message)]

/-- Embeds `run_command` from `build/common.rs` with the process spawn
abstracted into its `CommandOutcome`: returns the stdout on success, and
on a spawn error or non-zero exit records an error keyed by the command
name and returns `none`. -/
def run_command (errors : List (String × String)) (name path : String)
    (arguments : List String) (outcome : CommandOutcome) :
    List (String × String) × Option String :=
  match outcome with
  | .spawnError e => (add_command_error errors name path arguments ("error: " ++ e), none)
  | .exited true stdout _ => (errors, some stdout)
  | .exited false _ status =>
    (add_command_error errors name path arguments ("exit code: " ++ status), none)

/-- The per-thread library registry from `src/link.rs`
(`thread_local! static LIBRARY`), holding zero or one loaded library. -/
abbrev Registry := Option SharedLibrary

/-- The successful case of `load` from `src/link.rs`: the freshly opened
library is stored in the registry. -/
def load (_registry : Registry) (lib : SharedLibrary) : Registry :=
  some lib

/-- Embeds `unload` from `src/link.rs`: `set_library(None)` always clears the
registry; the call succeeds exactly when a library was in use. -/
def unload (registry : Registry) : Registry × Except String Unit :=
  match registry with
  | some _ => (none, .ok ())
  | none => (none, .error "a `libclang` shared library is not in use in the current thread")

/-- Rust `str::lines().next()` on a character list: `none` for the empty
string; otherwise the text up to the first newline, with a final carriage
return stripped when a newline terminated the line. -/
def lines_first? (cs : List Char) : Option (List Char) :=
  if cs.isEmpty then none
  else if cs.contains '\n' then
    let body := cs.takeWhile (fun c => c ≠ '\n')
    some (if body.getLast? = some '\r' then body.dropLast else body)
  else some cs

/-- The first-line extraction applied to a successful probe's output in
`search_libclang_directories` (`build/common.rs`):
`output.lines().next().unwrap()`.  A `none` result models the panic of
the `unwrap`; the probe-derived directory search continues only on
`some`. -/
def probe_first_line (output : String) : Option (List Char) :=
  lines_first? output.toList

/-- Claim C4: a library exposing the 21-and-newer marker whose version
string parses as `clang version 22.0.3` is classified as release line 22
(the string parse overrides the marker-implied 21 floor); when the string
is unavailable or unparseable the classification falls back to the
marker-implied release line 21; and a library exposing the release-line-19
marker and no newer marker, with string parsing unavailable, is classified
as release line 19 rather than unknown. -/
theorem version_scenarios :
    SharedLibrary.version
      ⟨["clang_getFullyQualifiedName", "clang_getClangVersion", "clang_getCString",
        "clang_disposeString"], some "clang version 22.0.3"⟩ = some .V22_0 ∧
    SharedLibrary.version ⟨["clang_getFullyQualifiedName"], none⟩ = some .V21_0 ∧
    SharedLibrary.version
      ⟨["clang_getFullyQualifiedName", "clang_getClangVersion", "clang_getCString",
        "clang_disposeString"], some "not a version string"⟩ = some .V21_0 ∧
    SharedLibrary.version ⟨["clang_Cursor_getBinaryOpcode"], none⟩ = some .V19_0 := by
  refine ⟨by decide, by decide, by decide, by decide⟩

/-- Claim C1 counterexample: a library exposing the 21-and-newer marker
whose self-reported string parses as major 4 is classified as release
line 4, strictly below the marker-implied minimum of release line 21 —
the string parse overrides the marker floor downward. -/
theorem version_marker_floor_counterexample :
    hasSymbol
      ⟨["clang_getFullyQualifiedName", "clang_getClangVersion", "clang_getCString",
        "clang_disposeString"], some "clang version 4.0.0"⟩
      "clang_getFullyQualifiedName" = true ∧
    SharedLibrary.version
      ⟨["clang_getFullyQualifiedName", "clang_getClangVersion", "clang_getCString",
        "clang_disposeString"], some "clang version 4.0.0"⟩ = some .V4_0 ∧
    Version.val .V4_0 < Version.val .V21_0 := by
  refine ⟨by decide, by decide, by decide⟩

/-- Claim C1 (amended): when a marker-symbol check succeeds (the
21-and-newer marker, or the 17 marker), the classified version is at
least that marker's minimum release **provided the string-parsing
fallback does not itself parse a smaller major** (it fails or parses a
value at least the marker minimum); the source prefers a successful
string parse even when it is smaller. -/
theorem version_marker_floor (lib : SharedLibrary) :
    (hasSymbol lib "clang_getFullyQualifiedName" = true →
      (∀ v, lib.version_from_string = some v → Version.val .V21_0 ≤ v.val) →
      ∃ v, lib.version = some v ∧ Version.val .V21_0 ≤ v.val) ∧
    (hasSymbol lib "clang_CXXMethod_isExplicit" = true →
      (∀ v, lib.version_from_string = some v → Version.val .V17_0 ≤ v.val) →
      ∃ v, lib.version = some v ∧ Version.val .V17_0 ≤ v.val) := by
  constructor
  · intro h21 hstr
    cases hvfs : lib.version_from_string with
    | none =>
      exact ⟨.V21_0, by simp [SharedLibrary.version, h21, hvfs], Nat.le_refl _⟩
    | some v =>
      exact ⟨v, by simp [SharedLibrary.version, h21, hvfs], hstr v hvfs⟩
  · intro h17 hstr
    by_cases h21 : hasSymbol lib "clang_getFullyQualifiedName"
    · cases hvfs : lib.version_from_string with
      | none =>
        refine ⟨.V21_0, by simp [SharedLibrary.version, h21, hvfs], by decide⟩
      | some v =>
        exact ⟨v, by simp [SharedLibrary.version, h21, hvfs], hstr v hvfs⟩
    · by_cases h20 : hasSymbol lib "clang_getOffsetOfBase"
      · refine ⟨.V20_0, by simp [SharedLibrary.version, h21, h20], by decide⟩
      · by_cases h19 : hasSymbol lib "clang_Cursor_getBinaryOpcode"
        · refine ⟨.V19_0, by simp [SharedLibrary.version, h21, h20, h19], by decide⟩
        · cases hvfs : lib.version_from_string with
          | none =>
            refine ⟨.V17_0,
              by simp [SharedLibrary.version, h21, h20, h19, h17, hvfs], Nat.le_refl _⟩
          | some v =>
            exact ⟨v, by simp [SharedLibrary.version, h21, h20, h19, h17, hvfs],
              hstr v hvfs⟩

/-- Claim C1 witness: the amended floor theorem applied to a concrete
library exposing only the 21-and-newer marker. -/
theorem version_marker_floor_witness :
    ∃ v, SharedLibrary.version ⟨["clang_getFullyQualifiedName"], none⟩ = some v ∧
      Version.val .V21_0 ≤ v.val :=
  (version_marker_floor ⟨["clang_getFullyQualifiedName"], none⟩).1 (by decide)
    (by
      intro v h
      rw [show SharedLibrary.version_from_string ⟨["clang_getFullyQualifiedName"], none⟩ =
        none from by decide] at h
      cases h)

/-- Claim C7: a successful load followed by an unload leaves the
per-thread registry empty, and a second unload without an intervening
load fails with the documented error while the registry stays empty. -/
theorem load_unload_round_trip (r : Registry) (lib : SharedLibrary) :
    (unload (load r lib)).1 = none ∧
    (unload (load r lib)).2 = .ok () ∧
    (unload (unload (load r lib)).1).1 = none ∧
    (unload (unload (load r lib)).1).2 =
      .error "a `libclang` shared library is not in use in the current thread" := by
  exact ⟨rfl, rfl, rfl, rfl⟩

/-- Claim C10: when the `llvm-config --prefix` (or `xcode-select
--print-path`) probe succeeds, the search takes the first line of the
output with `lines().next().unwrap()`; on an empty output there is no
first line and the unwrap panics (modelled by `none`), while every
non-empty output yields a first line and the search continues. -/
theorem probe_empty_output_panics :
    probe_first_line "" = none ∧
    ∀ s : String, s ≠ "" → (probe_first_line s).isSome = true := by
  constructor
  · decide
  · intro s hs
    cases s with
    | mk data =>
      cases data with
      | nil => exact absurd rfl hs
      | cons c cs =>
        show (lines_first? (c :: cs)).isSome = true
        unfold lines_first?
        simp only [List.isEmpty_cons, Bool.false_eq_true, if_false]
        split <;> simp

/-- Claim C10 witness: the first-line theorem applied to a concrete
non-empty probe output. -/
theorem probe_empty_output_panics_witness :
    (probe_first_line "/usr/lib\n").isSome = true :=
  probe_empty_output_panics.2 "/usr/lib\n" (by decide)

/-- A call of `find_llvm_config` on a state whose cache is already
populated neither changes the state nor recomputes. -/
theorem resolveN_cached (u : Option String) (c : Option String) (k : Nat) :
    ∀ n, resolveN u n ⟨some c, k⟩ = ⟨some c, k⟩ := by
  intro n
  induction n with
  | zero => rfl
  | succ m ih => simpa [resolveN, find_llvm_config_step] using ih

/-- Claim C8: starting from the fresh per-process cache, any positive
number of `find_llvm_config` resolutions runs the uncached search exactly
once (and leaves that one result cached); and in test execution mode the
uncached search returns no result regardless of the PATH-probe outcome,
target version, or filesystem candidates — it never consults them. -/
theorem llvm_config_cache_once :
    (∀ (u : Option String) (n : Nat), 1 ≤ n →
      (resolveN u n ⟨none, 0⟩).computes = 1 ∧ (resolveN u n ⟨none, 0⟩).cached = some u) ∧
    (∀ (pathProbe : Option String) (target : Option Nat) (candidates : List Cand),
      find_llvm_config_uncached_model true pathProbe target candidates = none) := by
  constructor
  · intro u n hn
    cases n with
    | zero => exact absurd hn (by decide)
    | succ m =>
      have hstep : (find_llvm_config_step u ⟨none, 0⟩).1 = ⟨some u, 1⟩ := rfl
      have : resolveN u (m + 1) ⟨none, 0⟩ = resolveN u m ⟨some u, 1⟩ := by
        simp [resolveN, hstep]
      rw [this, resolveN_cached]
      exact ⟨rfl, rfl⟩
  · intro pathProbe target candidates
    rfl

/-- Claim C8 witness: three resolutions from the fresh cache compute the
search exactly once. -/
theorem llvm_config_cache_once_witness :
    (resolveN (some "/usr/bin/llvm-config-18") 3 ⟨none, 0⟩).computes = 1 :=
  (llvm_config_cache_once.1 (some "/usr/bin/llvm-config-18") 3 (by decide)).1

/-- Claim C6: whatever paths the glob patterns matched in a directory,
the filesystem scanner never returns a result whose filename contains the
excluded `-cpp.` infix (the marker of the renamed `libclang-cpp`
library). -/
theorem search_directory_excludes_infix
    (globMatches : List (List Component)) (d : List Component) (f : Component)
    (h : (d, f) ∈ search_directory globMatches) :
    containsInfix "-cpp.".toList f = false := by
  unfold search_directory at h
  rw [List.mem_filterMap] at h
  obtain ⟨path, -, hmap⟩ := h
  cases hlast : path.getLast? with
  | none => rw [hlast] at hmap; cases hmap
  | some filename =>
    rw [hlast] at hmap
    simp at hmap
    obtain ⟨h1, -, rfl⟩ := hmap
    exact h1

/-- Claim C6 witness: the exclusion theorem applied to a concrete glob
result in which a `libclang-cpp` filename was matched alongside a genuine
`libclang` filename. -/
theorem search_directory_excludes_infix_witness :
    containsInfix "-cpp.".toList "libclang.so".toList = false :=
  search_directory_excludes_infix
    [["usr".toList, "lib".toList, "libclang-cpp.so.10".toList],
     ["usr".toList, "lib".toList, "libclang.so".toList]]
    ["usr".toList, "lib".toList] "libclang.so".toList (by decide)

/-- Claim C9 counterexample: a probe that runs and exits successfully
with stdout `"  /usr/lib/llvm\n"` returns that text unmodified — not the
trimmed text the claim describes. -/
theorem run_command_trim_counterexample :
    (run_command [] "llvm-config" "llvm-config" ["--prefix"]
        (.exited true "  /usr/lib/llvm\n" "exit status: 0")).2 =
      some "  /usr/lib/llvm\n" ∧
    trimChars "  /usr/lib/llvm\n".toList = "/usr/lib/llvm".toList ∧
    "  /usr/lib/llvm\n".toList ≠ trimChars "  /usr/lib/llvm\n".toList := by
  refine ⟨by decide, by decide, by decide⟩

/-- Claim C9 (amended): on a successful run the probe runner returns the
stdout text unmodified (the lossy UTF-8 decoding, without trimming) and
records nothing; when spawning fails or the exit status is non-zero it
returns no value and appends exactly one structured error message keyed
by the helper's name to the accumulated error map, never propagating the
failure. -/
theorem run_command_contract (errors : List (String × String))
    (name path : String) (arguments : List String) :
    (∀ stdout status,
      run_command errors name path arguments (.exited true stdout status) =
        (errors, some stdout)) ∧
    (∀ e,
      run_command errors name path arguments (.spawnError e) =
        (errors ++ [(name, command_error_entry name path arguments ("error: " ++ e))],
         none)) ∧
    (∀ stdout status,
      run_command errors name path arguments (.exited false stdout status) =
        (errors ++ [(name, command_error_entry name path arguments
          ("exit code: " ++ status))], none)) := by
  refine ⟨fun stdout status => rfl, fun e => rfl, fun stdout status => rfl⟩

/-- Searching with `List.find?` returns the head of the first matching decomposition:
with everything before `c` failing the predicate and `c` satisfying it,
the search yields `c`. -/
theorem find?_first_match {α : Type} (p : α → Bool) (c : α) :
    ∀ (pre post : List α), p c = true → (∀ x ∈ pre, p x = false) →
      (pre ++ c :: post).find? p = some c := by
  intro pre
  induction pre with
  | nil =>
    intro post hc _
    simp [List.find?_cons, hc]
  | cons x xs ih =>
    intro post hc hpre
    have hx : p x = false := hpre x (List.mem_cons_self x xs)
    simp only [List.cons_append, List.find?_cons, hx]
    exact ih post hc fun y hy => hpre y (List.mem_cons_of_mem x hy)

/-- Claim C2: with a target-version constraint, the selector only ever
returns a discovered candidate whose leading version-key component equals
the constraint; it returns the first such candidate in discovery order;
when no candidate's leading component equals the constraint it returns
nothing rather than substituting a different version; and the diagnostic
set of available leading components is exactly the candidates' leading
components — including the spec's 17/18 scenario. -/
theorem find_llvm_config_with_constraint (candidates : List Cand) (t : Nat) :
    (∀ p, find_llvm_config_select candidates (some t) = some p →
      ∃ c ∈ candidates, c.1 = p ∧ c.2.head? = some t) ∧
    ((∀ c ∈ candidates, c.2.head? ≠ some t) →
      find_llvm_config_select candidates (some t) = none) ∧
    (∀ pre c post, candidates = pre ++ c :: post → c.2.head? = some t →
      (∀ c' ∈ pre, c'.2.head? ≠ some t) →
      find_llvm_config_select candidates (some t) = some c.1) ∧
    find_llvm_config_select
      [("libclang-config-17", [17]), ("libclang-config-18", [18])] (some 18) =
      some "libclang-config-18" ∧
    find_llvm_config_select
      [("libclang-config-17", [17]), ("libclang-config-18", [18])] (some 19) = none ∧
    available_versions [("libclang-config-17", [17]), ("libclang-config-18", [18])] =
      ["17", "18"] := by
  refine ⟨?_, ?_, ?_, by decide, by decide, by decide⟩
  · intro p hp
    unfold find_llvm_config_select at hp
    by_cases he : candidates.isEmpty
    · rw [if_pos he] at hp; cases hp
    · rw [if_neg he] at hp
      have hp' : (match candidates.find? (fun c => c.2.head? == some t) with
          | some c => some c.1
          | none => none) = some p := hp
      cases hf : candidates.find? (fun c => c.2.head? == some t) with
      | none => rw [hf] at hp'; cases hp'
      | some c =>
        rw [hf] at hp'
        have hc : c ∈ candidates := List.mem_of_find?_eq_some hf
        have hpc := List.find?_some hf
        simp only [beq_iff_eq] at hpc
        cases hp'
        exact ⟨c, hc, rfl, hpc⟩
  · intro hnone
    unfold find_llvm_config_select
    by_cases he : candidates.isEmpty
    · rw [if_pos he]
    · rw [if_neg he]
      have hf : candidates.find? (fun c => c.2.head? == some t) = none := by
        rw [List.find?_eq_none]
        intro x hx
        simp only [beq_iff_eq]
        exact hnone x hx
      show (match candidates.find? (fun c => c.2.head? == some t) with
          | some c => some c.1
          | none => none) = none
      rw [hf]
  · intro pre c post hdec hc hpre
    subst hdec
    have hne : (pre ++ c :: post).isEmpty = false := by
      cases pre <;> simp
    have hf : (pre ++ c :: post).find? (fun x => x.2.head? == some t) = some c := by
      refine find?_first_match _ c pre post ?_ ?_
      · simp [hc]
      · intro x hx
        simp only [beq_eq_false_iff_ne, ne_eq]
        exact hpre x hx
    unfold find_llvm_config_select
    rw [if_neg (by rw [hne]; exact fun h => nomatch h)]
    show (match (pre ++ c :: post).find? (fun x => x.2.head? == some t) with
        | some c => some c.1
        | none => none) = some c.1
    rw [hf]

/-- Claim C2 witness: the constrained selector applied to the concrete
17/18 pool at constraint 18, via the first-in-discovery-order part of the
theorem. -/
theorem find_llvm_config_with_constraint_witness :
    find_llvm_config_select
      [("libclang-config-17", [17]), ("libclang-config-18", [18])] (some 18) =
      some "libclang-config-18" :=
  (find_llvm_config_with_constraint
      [("libclang-config-17", [17]), ("libclang-config-18", [18])] 18).2.2.1
    [("libclang-config-17", [17])] ("libclang-config-18", [18]) [] rfl (by decide)
    (by decide)

/-- Lexicographic comparison is antisymmetric: a strictly smaller key
compares as strictly greater from the other side. -/
theorem vecCmp_lt_gt : ∀ (a b : List Nat), vecCmp a b = .lt → vecCmp b a = .gt := by
  intro a
  induction a with
  | nil =>
    intro b hb
    cases b with
    | nil => cases hb
    | cons y ys => rfl
  | cons x xs ih =>
    intro b hb
    cases b with
    | nil => cases hb
    | cons y ys =>
      cases hcmp : compare x y with
      | eq =>
        have hx : x = y := Nat.compare_eq_eq.mp hcmp
        subst hx
        have h1 : vecCmp xs ys = .lt := by
          unfold vecCmp at hb
          rw [hcmp] at hb
          exact hb
        have h2 := ih ys h1
        unfold vecCmp
        rw [hcmp]
        exact h2
      | lt =>
        have hyx : compare y x = .gt := Nat.compare_eq_gt.mpr (Nat.compare_eq_lt.mp hcmp)
        unfold vecCmp
        rw [hyx]
      | gt =>
        exfalso
        unfold vecCmp at hb
        rw [hcmp] at hb
        cases hb

/-- The first maximum of a candidate list under `vecCmp` on version keys:
the element a stable descending sort puts first. -/
def firstMax : List Cand → Option Cand
  | [] => none
  | x :: xs =>
    match firstMax xs with
    | none => some x
    | some m => if vecCmp m.2 x.2 = .gt then some m else some x

/-- The first maximum is an element of the list. -/
theorem firstMax_mem : ∀ (l : List Cand) (m : Cand), firstMax l = some m → m ∈ l := by
  intro l
  induction l with
  | nil => intro m h; cases h
  | cons x xs ih =>
    intro m h
    unfold firstMax at h
    cases hm : firstMax xs with
    | none => rw [hm] at h; cases h; exact List.mem_cons_self x xs
    | some b =>
      rw [hm] at h
      have h' : (if vecCmp b.2 x.2 = Ordering.gt then some b else some x) = some m := h
      by_cases hg : vecCmp b.2 x.2 = .gt
      · rw [if_pos hg] at h'; cases h'; exact List.mem_cons_of_mem _ (ih _ hm)
      · rw [if_neg hg] at h'; cases h'; exact List.mem_cons_self x xs

/-- The head of the stable descending sort is the first maximum. -/
theorem sortDesc_head : ∀ l : List Cand, (sortDesc l).head? = firstMax l := by
  intro l
  induction l with
  | nil => rfl
  | cons x xs ih =>
    show (insertDesc x (sortDesc xs)).head? = _
    unfold firstMax
    cases hm : firstMax xs with
    | none =>
      have hnil : sortDesc xs = [] := List.head?_eq_none_iff.mp (by rw [ih, hm])
      rw [hnil]
      rfl
    | some m =>
      have hh : (sortDesc xs).head? = some m := by rw [ih, hm]
      cases hs : sortDesc xs with
      | nil => rw [hs] at hh; cases hh
      | cons a tail =>
        rw [hs] at hh
        have ha : a = m := by simpa using hh
        subst ha
        show (insertDesc x (a :: tail)).head? =
          if vecCmp a.2 x.2 = Ordering.gt then some a else some x
        unfold insertDesc
        by_cases hg : vecCmp a.2 x.2 = .gt
        · rw [if_pos hg, if_pos hg]; rfl
        · rw [if_neg hg, if_neg hg]; rfl

/-- Prepending strictly smaller candidates does not change the first
maximum. -/
theorem firstMax_of_prefix_lt :
    ∀ (pre rest : List Cand) (c : Cand), firstMax rest = some c →
      (∀ e ∈ pre, vecCmp e.2 c.2 = .lt) → firstMax (pre ++ rest) = some c := by
  intro pre
  induction pre with
  | nil => intro rest c h _; exact h
  | cons p ps ih =>
    intro rest c h hpre
    have hrec := ih rest c h fun e he => hpre e (List.mem_cons_of_mem _ he)
    show firstMax (p :: (ps ++ rest)) = some c
    unfold firstMax
    rw [hrec]
    show (if vecCmp c.2 p.2 = Ordering.gt then some c else some p) = some c
    have hp : vecCmp p.2 c.2 = .lt := hpre p (List.mem_cons_self _ _)
    rw [if_pos (vecCmp_lt_gt _ _ hp)]

/-- A candidate at the front that no later candidate strictly beats is
the first maximum. -/
theorem firstMax_cons_of_max (c : Cand) (post : List Cand)
    (hpost : ∀ e ∈ post, vecCmp e.2 c.2 ≠ .gt) : firstMax (c :: post) = some c := by
  unfold firstMax
  cases hm : firstMax post with
  | none => rfl
  | some m =>
    show (if vecCmp m.2 c.2 = Ordering.gt then some m else some c) = some c
    rw [if_neg (hpost m (firstMax_mem post m hm))]

/-- Claim C3: with no constraint, the selector returns the candidate with
the numerically highest version key (keys compared lexicographically,
descending), ties broken by discovery order — stated as: any candidate
all of whose predecessors have strictly smaller keys and all of whose
successors have keys no greater is the one returned. -/
theorem find_llvm_config_no_constraint (pre post : List Cand) (c : Cand)
    (hpre : ∀ e ∈ pre, vecCmp e.2 c.2 = .lt)
    (hpost : ∀ e ∈ post, vecCmp e.2 c.2 ≠ .gt) :
    find_llvm_config_select (pre ++ c :: post) none = some c.1 := by
  have hne : (pre ++ c :: post).isEmpty = false := by cases pre <;> simp
  unfold find_llvm_config_select
  rw [if_neg (by rw [hne]; exact fun h => nomatch h)]
  show ((sortDesc (pre ++ c :: post)).head?).map (fun c => c.1) = some c.1
  rw [sortDesc_head,
    firstMax_of_prefix_lt pre (c :: post) c (firstMax_cons_of_max c post hpost) hpre]
  rfl

/-- Claim C3 witness: the unconstrained selector applied to a concrete
pool with a duplicate maximal key returns the earlier-discovered maximal
candidate. -/
theorem find_llvm_config_no_constraint_witness :
    find_llvm_config_select
      [("/usr/bin/llvm-config-17", [17]), ("/usr/bin/llvm-config-18", [18]),
       ("/usr/lib/llvm-18/bin/llvm-config", [18])] none =
      some "/usr/bin/llvm-config-18" :=
  find_llvm_config_no_constraint [("/usr/bin/llvm-config-17", [17])]
    [("/usr/lib/llvm-18/bin/llvm-config", [18])] ("/usr/bin/llvm-config-18", [18])
    (by decide) (by decide)

/-- The low-priority key `[0]` never compares greater than another
version key. -/
theorem vecCmp_zero_le (k : Nat) (ks : List Nat) : vecCmp [0] (k :: ks) ≠ Ordering.gt := by
  unfold vecCmp
  cases k with
  | zero =>
    rw [Nat.compare_eq_eq.mpr rfl]
    cases ks with
    | nil => simp [vecCmp]
    | cons y ys => simp [vecCmp]
  | succ n =>
    rw [Nat.compare_eq_lt.mpr (Nat.succ_pos n)]
    simp

/-- The low-priority key `[0]` compares strictly below any version key
with a positive leading component. -/
theorem vecCmp_zero_lt (k : Nat) (ks : List Nat) (hk : 1 ≤ k) :
    vecCmp [0] (k :: ks) = Ordering.lt := by
  unfold vecCmp
  rw [Nat.compare_eq_lt.mpr hk]

/-- The sentinel key `[999]` compares strictly above any version key
whose leading component is below 999. -/
theorem vecCmp_sentinel_gt (k : Nat) (ks : List Nat) (hk : k < 999) :
    vecCmp [999] (k :: ks) = Ordering.gt := by
  unfold vecCmp
  rw [Nat.compare_eq_gt.mpr hk]

/-- A component list in which no component carries a parseable `llvm@` or
`llvm-` version suffix scans to the sentinel key. -/
theorem scanComponents_unversioned :
    ∀ comps : List Component,
      (∀ c ∈ comps,
        (∀ r, stripPref "llvm@".toList c = some r → parseDotted r = []) ∧
        (∀ r, stripPref "llvm-".toList c = some r → parseDotted r = [])) →
      scanComponents comps = [999] := by
  intro comps
  induction comps with
  | nil => intro _; rfl
  | cons c cs ih =>
    intro h
    have hc := h c (List.mem_cons_self _ _)
    unfold scanComponents
    have h1 : (match stripPref "llvm@".toList c with
        | some r => parseDotted r
        | none => []) = ([] : List Nat) := by
      cases hat : stripPref "llvm@".toList c with
      | none => rfl
      | some r => exact hc.1 r hat
    have h2 : (match stripPref "llvm-".toList c with
        | some r => parseDotted r
        | none => []) = ([] : List Nat) := by
      cases hdash : stripPref "llvm-".toList c with
      | none => rfl
      | some r => exact hc.2 r hdash
    simp only [h1, h2, List.isEmpty_nil, if_true]
    exact ih fun e he => h e (List.mem_cons_of_mem _ he)

/-- Claim C5 counterexample: the extractor's low-priority key for a
non-numeric suffix is `[0]`, but a numeric suffix can also yield `[0]`
(`llvm-config-0`), which the low-priority key does not sort below; and
the unversioned sentinel `[999]` sorts *below* the explicit numeric
version key `[1000]` extracted from an `llvm-1000` install, so the
sentinel does not sort above every explicit numeric version. -/
theorem extract_version_counterexample :
    extract_version_from_llvm_path ["llvm-config-beta".toList] = [0] ∧
    extract_version_from_llvm_path ["llvm-config-0".toList] = [0] ∧
    vecCmp [0] [0] ≠ Ordering.lt ∧
    extract_version_from_llvm_path
      ["usr".toList, "bin".toList, "llvm-config".toList] = [999] ∧
    extract_version_from_llvm_path
      ["usr".toList, "llvm-1000".toList, "bin".toList, "llvm-config".toList] = [1000] ∧
    vecCmp [999] [1000] = Ordering.lt := by
  refine ⟨by decide, by decide, by decide, by decide, by decide, by decide⟩

/-- Claim C5 (amended): the extractor's rules apply in order with the
first match winning — a filename `llvm-config-<suffix>` with a suffix
parsing to a non-empty integer sequence yields that sequence regardless
of the other components; a suffix parsing to nothing yields the
single-element low-priority key `[0]`, which never sorts above a version
key and sorts strictly below any with a positive leading component; and a
path with no versioned component anywhere yields the single-element
sentinel `[999]`, which sorts above any version key whose leading
component is below 999 (not above *every* numeric key). -/
theorem extract_version_rules :
    (∀ (comps : List Component) (name rest : Component),
      stripPref "llvm-config-".toList name = some rest →
      parseDotted rest ≠ [] →
      extract_version_from_llvm_path (comps ++ [name]) = parseDotted rest) ∧
    (∀ (comps : List Component) (name rest : Component),
      stripPref "llvm-config-".toList name = some rest →
      parseDotted rest = [] →
      extract_version_from_llvm_path (comps ++ [name]) = [0]) ∧
    (∀ comps : List Component,
      (∀ name, comps.getLast? = some name →
        stripPref "llvm-config-".toList name = none) →
      (∀ c ∈ comps,
        (∀ r, stripPref "llvm@".toList c = some r → parseDotted r = []) ∧
        (∀ r, stripPref "llvm-".toList c = some r → parseDotted r = [])) →
      extract_version_from_llvm_path comps = [999]) ∧
    (∀ (k : Nat) (ks : List Nat), vecCmp [0] (k :: ks) ≠ Ordering.gt) ∧
    (∀ (k : Nat) (ks : List Nat), 1 ≤ k → vecCmp [0] (k :: ks) = Ordering.lt) ∧
    (∀ (k : Nat) (ks : List Nat), k < 999 → vecCmp [999] (k :: ks) = Ordering.gt) := by
  refine ⟨?_, ?_, ?_, vecCmp_zero_le, vecCmp_zero_lt, vecCmp_sentinel_gt⟩
  · intro comps name rest hstrip hne
    unfold extract_version_from_llvm_path
    have hbind : ((comps ++ [name]).getLast? >>= stripPref "llvm-config-".toList) =
        some rest := by
      rw [List.getLast?_concat]
      simpa using hstrip
    rw [hbind]
    have hemp : (parseDotted rest).isEmpty = false := by
      cases hp : parseDotted rest with
      | nil => exact absurd hp hne
      | cons a l => rfl
    simp only [hemp, Bool.false_eq_true, if_false]
  · intro comps name rest hstrip hz
    unfold extract_version_from_llvm_path
    have hbind : ((comps ++ [name]).getLast? >>= stripPref "llvm-config-".toList) =
        some rest := by
      rw [List.getLast?_concat]
      simpa using hstrip
    rw [hbind]
    simp only [hz, List.isEmpty_nil, if_true]
  · intro comps hlast hcomp
    unfold extract_version_from_llvm_path
    have hbind : (comps.getLast? >>= stripPref "llvm-config-".toList) = none := by
      cases hl : comps.getLast? with
      | none => rfl
      | some name => simpa using hlast name hl
    rw [hbind]
    exact scanComponents_unversioned comps hcomp

/-- Claim C5 witness: the numeric-suffix rule applied to a concrete
`llvm-config-17.1` filename under a versioned directory. -/
theorem extract_version_rules_witness :
    extract_version_from_llvm_path
      (["usr".toList, "bin".toList] ++ ["llvm-config-17.1".toList]) = [17, 1] :=
  extract_version_rules.1 ["usr".toList, "bin".toList] "llvm-config-17.1".toList
    "17.1".toList (by decide) (by decide)

end ClangSys
